import Mathlib

/-!
Verification development for the reactivity-from-scratch repository.

The repository implements, in several incremental variants, a fine-grained
reactive-dependency engine: a dependency graph keyed on (target, key) pairs,
an effect context with an active-effect variable (later a stack), a
deduplicating microtask job queue, proxy-based observation (reactive /
readonly / array handling / ref auto-unwrap), and a lazy memoized computed
cell.  Each namespace below is a shallow embedding of one source file's
relevant functions:

* `P0`    — src/unnamed/part_000 (ref, watchEffect, queueJob/flushJobs,
            track/trigger/removeEffect with a single ref target).
* `Sched` — the scheduler (queueJob/flushJobs) shared verbatim by
            src/day-7/app.js lines 129-144, with jobs abstracted by the
            enqueue calls they make (or the error they raise).
* `CS`    — src/day-4/app.js computed (lines 158-181) together with the
            ref, track/trigger, effect stack and queue it uses.
* `D7`    — src/day-7/app.js reactive proxy traps (get trap with ref
            unwrap, array set trap) over an explicit heap of objects.
* `D6`    — src/day-6/app.js readonly proxy write/delete traps.
* `D2`    — src/day-2/app.js reactive proxy with fresh-proxy-per-read
            allocation and synchronous trigger.

JavaScript `Set`s (insertion-ordered, deduplicating) are modelled as
duplicate-free `List`s with `addSet`; `Map`s as association lists with
`lookupA`/`setA`.  The microtask boundary is modelled by invoking the
flush explicitly after a synchronous burst of operations, gated by the
`isFlushPending` flag exactly as in the source.
-/

/-- Insertion-ordered set insertion, as JavaScript `Set.add`: a member that
is already present is not duplicated, a fresh one is appended. -/
def addSet {α : Type} [DecidableEq α] (l : List α) (a : α) : List α :=
  if a ∈ l then l else l ++ [a]

/-- Association-list lookup, as JavaScript `Map.get`. -/
def lookupA {α β : Type} [DecidableEq α] : List (α × β) → α → Option β
  | [], _ => none
  | (a, b) :: t, x => if x = a then some b else lookupA t x

/-- Association-list update, as JavaScript `Map.set`. -/
def setA {α β : Type} [DecidableEq α] : List (α × β) → α → β → List (α × β)
  | [], a, b => [(a, b)]
  | (a', b') :: t, a, b =>
      if a = a' then (a, b) :: t else (a', b') :: setA t a b

theorem mem_addSet_self {α : Type} [DecidableEq α] (l : List α) (a : α) :
    a ∈ addSet l a := by
  unfold addSet
  by_cases h : a ∈ l <;> simp [h]

theorem mem_addSet_of_mem {α : Type} [DecidableEq α] {l : List α} {x : α}
    (a : α) (h : x ∈ l) : x ∈ addSet l a := by
  unfold addSet
  by_cases ha : a ∈ l <;> simp [ha, h]

theorem mem_addSet_iff {α : Type} [DecidableEq α] {l : List α} {x a : α} :
    x ∈ addSet l a ↔ x ∈ l ∨ x = a := by
  unfold addSet
  by_cases ha : a ∈ l
  · simp only [ha, if_true]
    constructor
    · exact fun h => Or.inl h
    · rintro (h | rfl) <;> assumption
  · simp [ha]

theorem nodup_addSet {α : Type} [DecidableEq α] {l : List α}
    (hl : l.Nodup) (a : α) : (addSet l a).Nodup := by
  unfold addSet
  by_cases ha : a ∈ l
  · simpa [ha]
  · simpa [ha, List.nodup_append] using hl

theorem lookupA_setA_same {α β : Type} [DecidableEq α]
    (l : List (α × β)) (a : α) (b : β) : lookupA (setA l a b) a = some b := by
  induction l with
  | nil => simp [setA, lookupA]
  | cons hd t ih =>
      obtain ⟨a', b'⟩ := hd
      by_cases h : a = a'
      · simp [setA, lookupA, h]
      · simp [setA, lookupA, h, ih]

theorem lookupA_setA_other {α β : Type} [DecidableEq α]
    (l : List (α × β)) {a x : α} (b : β) (hx : x ≠ a) :
    lookupA (setA l a b) x = lookupA l x := by
  induction l with
  | nil => simp [setA, lookupA, hx]
  | cons hd t ih =>
      obtain ⟨a', b'⟩ := hd
      by_cases h : a = a'
      · subst h
        simp [setA, lookupA, hx]
      · by_cases hxa : x = a'
        · simp [setA, lookupA, h, hxa]
        · simp [setA, lookupA, h, hxa, ih]

namespace P0

/-! Shallow embedding of src/unnamed/part_000: a single `ref` cell, the
dependency set for its one `(refObject, "value")` pair, the job queue, and
`watchEffect` with cleanup registration and its `stop` closure.  Effects
are identified by numbers; the scenario's sole wrapped effect has id 0.
Cleanup functions are identified by tokens recorded in `cleanupRuns` when
invoked; the effect body is a list of primitive operations. -/

/-- One primitive operation an effect body can perform: push the ref's
value onto the log (the spec scenario's `log.push(c.value)`), register a
cleanup, or write the ref. -/
inductive P0Op where
  | readLog : P0Op
  | regCleanup (c : Nat) : P0Op
  | writeRef (v : Int) : P0Op
deriving DecidableEq, Repr

/-- Global state of part_000: ref value, scenario log, the subscriber set
of `(refObject, "value")`, the job queue with its pending flag, the
`activeEffect` variable, the `watchEffect` closure's `cleanup` variable,
and instrumentation counters (`cleanupRuns` records each cleanup
invocation, `bodyRuns` counts executions of the effect body). -/
structure P0State where
  refVal : Int
  log : List Int
  deps : List Nat
  queue : List Nat
  isFlushPending : Bool
  activeEffect : Option Nat
  cleanup : Option Nat
  cleanupRuns : List Nat
  bodyRuns : Nat
deriving DecidableEq, Repr

/-- Source `track(target, key)` specialised to the single ref target:
inserts the active effect into the dependency set, if one is running. -/
def track0 (s : P0State) : P0State :=
  match s.activeEffect with
  | some e => { s with deps := addSet s.deps e }
  | none => s

/-- Source `queueJob(job)`: set-add to the queue; when no flush is pending
mark one pending (the microtask then runs `flushJobs`). -/
def queueJob0 (j : Nat) (s : P0State) : P0State :=
  let s1 := { s with queue := addSet s.queue j }
  if s1.isFlushPending then s1 else { s1 with isFlushPending := true }

/-- Source `trigger(target, key)` for the ref target: queue every
subscriber in the dependency set. -/
def trigger0 (s : P0State) : P0State :=
  s.deps.foldl (fun t e => queueJob0 e t) s

/-- Source ref getter: `track(refObject, 'value'); return value`. -/
def refGet (s : P0State) : Int × P0State :=
  let s1 := track0 s
  (s1.refVal, s1)

/-- Source ref setter: `value = newValue; trigger(refObject, 'value')`
(unconditional trigger, no equality check). -/
def refSet (v : Int) (s : P0State) : P0State :=
  trigger0 { s with refVal := v }

/-- Run one body operation. `readLog` is `log.push(c.value)`: the value
read goes through the tracked getter. -/
def runOp (s : P0State) : P0Op → P0State
  | .readLog =>
      let p := refGet s
      { p.2 with log := p.2.log ++ [p.1] }
  | .regCleanup c => { s with cleanup := some c }
  | .writeRef v => refSet v s

/-- Run the effect body (a list of operations), counting the execution. -/
def runBody (body : List P0Op) (s : P0State) : P0State :=
  body.foldl runOp { s with bodyRuns := s.bodyRuns + 1 }

/-- Source `wrappedEffect`: run the pending cleanup if any, set
`activeEffect` to this effect, clear the cleanup slot, run the body (which
may register a new cleanup), and finally reset `activeEffect` to null. -/
def wrappedEffect (body : List P0Op) (eid : Nat) (s : P0State) : P0State :=
  let s1 := match s.cleanup with
    | some c => { s with cleanupRuns := s.cleanupRuns ++ [c] }
    | none => s
  let s2 := { s1 with activeEffect := some eid, cleanup := none }
  let s3 := runBody body s2
  { s3 with activeEffect := none }

/-- Source `watchEffect`: queue the initial run of the wrapped effect
(the body itself does not run synchronously). -/
def watchEffect0 (s : P0State) : P0State :=
  queueJob0 0 s

/-- Source `stop` closure returned by `watchEffect`:
`queue.delete(wrappedEffect); if (cleanup) cleanup(); removeEffect(...)`.
Note the `cleanup` variable is invoked but not cleared. -/
def stopFn (eid : Nat) (s : P0State) : P0State :=
  let s1 := { s with queue := s.queue.erase eid }
  let s2 := match s1.cleanup with
    | some c => { s1 with cleanupRuns := s1.cleanupRuns ++ [c] }
    | none => s1
  { s2 with deps := s2.deps.erase eid }

/-- Source `flushJobs` loop body: iterate the queue (a live,
insertion-ordered set that may grow during iteration) by position, then
clear the queue and reset the pending flag.  Fuel bounds the iteration. -/
def flushLoop0 (env : Nat → P0State → P0State) :
    Nat → Nat → P0State → P0State
  | 0, _, s => s
  | fuel + 1, i, s =>
      if h : i < s.queue.length then
        flushLoop0 env fuel (i + 1) (env (s.queue.get ⟨i, h⟩) s)
      else
        { s with queue := [], isFlushPending := false }

/-- Source `flushJobs`. -/
def flushJobs0 (env : Nat → P0State → P0State) (fuel : Nat)
    (s : P0State) : P0State :=
  flushLoop0 env fuel 0 s

/-- Job environment: job 0 is the scenario's wrapped effect, other ids
are inert. -/
def envOf (body : List P0Op) : Nat → P0State → P0State :=
  fun j s => if j = 0 then wrappedEffect body j s else s

/-- Initial state for `const c = ref(v)` with empty log and queue. -/
def initP0 (v : Int) : P0State :=
  ⟨v, [], [], [], false, none, none, [], 0⟩

/-- Effect body of the end-to-end scenario: `() => log.push(c.value)`. -/
def bodyC1 : List P0Op := [.readLog]

/-- End-to-end scenario of the spec: `const c = ref(0)`, then
`watchEffect(() => log.push(c.value))`, then synchronously
`c.value = 1; c.value = 2`, then the scheduled microtask flush. -/
def scenarioC1 : P0State :=
  flushJobs0 (envOf bodyC1) 4 (refSet 2 (refSet 1 (watchEffect0 (initP0 0))))

/-- Effect body that registers cleanup token 7. -/
def bodyC2 : List P0Op := [.regCleanup 7]

/-- Scenario for stop idempotency: run the effect once (registering a
cleanup), then call the returned stop function twice. -/
def scenarioC2 : P0State :=
  stopFn 0 (stopFn 0 (flushJobs0 (envOf bodyC2) 4 (watchEffect0 (initP0 0))))

/-- Scenario for stopping before the first flush: `watchEffect(body)`,
then `stop()` immediately, then the already-scheduled flush fires. -/
def scenarioC10 (body : List P0Op) : P0State :=
  flushJobs0 (envOf body) 4 (stopFn 0 (watchEffect0 (initP0 0)))

end P0

/-- C1 counterexample: in the end-to-end scenario the log after the flush
is not `[0, 2]` — the initial run is itself deferred to the flush, so
nothing ever logs 0. -/
theorem scenario_log_not_zero_two : P0.scenarioC1.log ≠ [0, 2] := by
  decide

/-- C1 (amended): in the end-to-end scenario the log after the flush is
`[2]`: the initial run is deferred to the flush, so the two synchronous
writes and the initial run collapse into exactly one execution of the
body, which logs the final value 2. -/
theorem scenario_log_is_two :
    P0.scenarioC1.log = [2] ∧ P0.scenarioC1.bodyRuns = 1 := by
  decide

/-- C2: evaluating the code at the failing input — one run of an effect
that registered cleanup token 7, followed by two calls of the stop
function — shows the cleanup is invoked twice, because `stop` invokes the
`cleanup` variable without clearing it.  This contradicts the required
idempotency of `stop`. -/
theorem stop_twice_runs_cleanup_twice :
    P0.scenarioC2.cleanupRuns = [7, 7] ∧ P0.scenarioC2.bodyRuns = 1 := by
  decide

/-- C10: for every effect body, if the stop function is called before the
scheduler's first flush, then the pending initial run has been removed
from the job queue already at stop time, and after the (still scheduled)
flush the body has never executed, the effect never entered the
dependency set, no cleanup was ever invoked, the log is untouched, and
the queue and pending flag are reset. -/
theorem stop_before_first_flush (body : List P0.P0Op) :
    (P0.stopFn 0 (P0.watchEffect0 (P0.initP0 0))).queue = [] ∧
    (P0.scenarioC10 body).bodyRuns = 0 ∧
    (P0.scenarioC10 body).cleanupRuns = [] ∧
    (P0.scenarioC10 body).deps = [] ∧
    (P0.scenarioC10 body).log = [] ∧
    (P0.scenarioC10 body).queue = [] ∧
    (P0.scenarioC10 body).isFlushPending = false := by
  refine ⟨rfl, ?_, ?_, ?_, ?_, ?_, ?_⟩ <;> rfl

namespace Sched

/-! Shallow embedding of the scheduler shared by src/day-7/app.js lines
124-144 (and identically by day-4, day-6 and part_000): a deduplicating,
insertion-ordered job queue, a pending-flush flag, and `flushJobs`
iterating the live set.  A job is abstracted by its observable interaction
with the scheduler: the list of jobs it enqueues when it runs, or the
error it raises. -/

/-- Result of running one job: normal return together with the arguments
of the `queueJob` calls it made, or a raised error. -/
inductive JobRes where
  | ok (enq : List Nat) : JobRes
  | err : JobRes
deriving DecidableEq, Repr

/-- How a flush pass ended: the queue was exhausted, a job raised, or the
fuel bound was reached before exhaustion. -/
inductive Outcome where
  | completed : Outcome
  | errored : Outcome
  | fuelOut : Outcome
deriving DecidableEq, Repr

/-- Result of a flush pass: the jobs that ran to completion in order, the
queue contents afterwards, and how the pass ended. -/
structure FlushRes where
  ran : List Nat
  queue : List Nat
  outcome : Outcome
deriving DecidableEq, Repr

/-- Sequential `Set.add` of several jobs, as a job calling `queueJob`
once per element. -/
def enqAll (all : List Nat) (js : List Nat) : List Nat :=
  js.foldl addSet all

/-- Source `flushJobs` iteration: `for (const job of queue) job()`.  The
queue is split as processed prefix plus pending suffix; running the head
of the pending suffix may append fresh jobs (live iteration of a
JavaScript Set visits elements added during iteration, and re-adding a
present element changes nothing).  A raised error aborts the loop without
clearing the queue; normal exhaustion clears it. -/
def flushLoop (env : Nat → JobRes) :
    Nat → List Nat → List Nat → FlushRes
  | _, processed, [] => ⟨processed, [], .completed⟩
  | 0, processed, pending => ⟨processed, processed ++ pending, .fuelOut⟩
  | fuel + 1, processed, j :: rest =>
      match env j with
      | .err => ⟨processed, processed ++ j :: rest, .errored⟩
      | .ok enq =>
          let all := processed ++ j :: rest
          let all2 := enqAll all enq
          flushLoop env fuel (processed ++ [j])
            (rest ++ all2.drop all.length)

/-- Scheduler state: the job queue, the pending-flush flag, and a count
of how many flushes have been scheduled (each `Promise.resolve().then`). -/
structure SchedState where
  queue : List Nat
  isFlushPending : Bool
  scheduleCount : Nat
deriving DecidableEq, Repr

/-- Source `queueJob(job)`: set-add; when no flush is pending, mark one
pending and schedule a flush. -/
def queueJobS (j : Nat) (s : SchedState) : SchedState :=
  let s1 := { s with queue := addSet s.queue j }
  if s1.isFlushPending then s1
  else { s1 with isFlushPending := true,
                 scheduleCount := s1.scheduleCount + 1 }

/-- Source `flushJobs`: run the loop over the current queue; on normal
exhaustion clear the queue and reset the pending flag (`queue.clear();
isFlushPending = false`); a raised error skips both resets. -/
def flushJobsS (env : Nat → JobRes) (fuel : Nat) (s : SchedState) :
    SchedState × List Nat × Outcome :=
  let r := flushLoop env fuel [] s.queue
  match r.outcome with
  | .completed =>
      ({ s with queue := [], isFlushPending := false }, r.ran, .completed)
  | o => ({ s with queue := r.queue }, r.ran, o)

theorem enqAll_eq_append (js : List Nat) :
    ∀ all : List Nat, ∃ extra, enqAll all js = all ++ extra := by
  induction js with
  | nil => exact fun all => ⟨[], by simp [enqAll]⟩
  | cons j js ih =>
      intro all
      by_cases hj : j ∈ all
      · obtain ⟨ex, hex⟩ := ih all
        exact ⟨ex, by simpa [enqAll, addSet, hj] using hex⟩
      · obtain ⟨ex, hex⟩ := ih (all ++ [j])
        refine ⟨[j] ++ ex, ?_⟩
        simpa [enqAll, addSet, hj, List.append_assoc] using hex

theorem nodup_enqAll (js : List Nat) :
    ∀ all : List Nat, all.Nodup → (enqAll all js).Nodup := by
  induction js with
  | nil => exact fun all h => by simpa [enqAll] using h
  | cons j js ih =>
      intro all h
      have := ih (addSet all j) (nodup_addSet h j)
      simpa [enqAll] using this

theorem mem_enqAll_left (js : List Nat) :
    ∀ all : List Nat, ∀ x ∈ all, x ∈ enqAll all js := by
  induction js with
  | nil =>
      intro all x hx
      simpa [enqAll] using hx
  | cons j js ih =>
      intro all x hx
      have : x ∈ addSet all j := mem_addSet_of_mem j hx
      simpa [enqAll] using ih (addSet all j) x this

theorem mem_enqAll_right (js : List Nat) :
    ∀ all : List Nat, ∀ x ∈ js, x ∈ enqAll all js := by
  induction js with
  | nil => intro all x hx; cases hx
  | cons j js ih =>
      intro all x hx
      rcases List.mem_cons.mp hx with rfl | hx
      · have : x ∈ addSet all x := mem_addSet_self all x
        simpa [enqAll] using mem_enqAll_left js (addSet all x) x this
      · simpa [enqAll] using ih (addSet all j) x hx

/-- Main invariant lemma for the flush loop: on normal exhaustion, the
jobs that ran are the initial processed-plus-pending list extended by
appends only (so the initially queued jobs run in insertion order), the
run list is duplicate-free, every job enqueued by a ran job is itself in
the run list (same-pass execution), and the resulting queue is empty. -/
theorem flushLoop_spec (env : Nat → JobRes) :
    ∀ (fuel : Nat) (processed pending : List Nat),
      (processed ++ pending).Nodup →
      (∀ j ∈ processed, ∀ enq, env j = .ok enq →
        ∀ x ∈ enq, x ∈ processed ++ pending) →
      (flushLoop env fuel processed pending).outcome = .completed →
      (∃ t, (flushLoop env fuel processed pending).ran
          = processed ++ pending ++ t) ∧
      (flushLoop env fuel processed pending).ran.Nodup ∧
      (∀ j ∈ (flushLoop env fuel processed pending).ran,
        ∀ enq, env j = .ok enq →
          ∀ x ∈ enq, x ∈ (flushLoop env fuel processed pending).ran) ∧
      (flushLoop env fuel processed pending).queue = [] := by
  intro fuel
  induction fuel with
  | zero =>
      intro processed pending hnd hcl hout
      cases pending with
      | nil =>
          refine ⟨⟨[], by simp [flushLoop]⟩, ?_, ?_, by simp [flushLoop]⟩
          · simpa [flushLoop] using hnd
          · intro j hj enq henq x hx
            have := hcl j (by simpa [flushLoop] using hj) enq henq x hx
            simpa [flushLoop] using this
      | cons j rest => simp [flushLoop] at hout
  | succ fuel ih =>
      intro processed pending hnd hcl hout
      cases pending with
      | nil =>
          refine ⟨⟨[], by simp [flushLoop]⟩, ?_, ?_, by simp [flushLoop]⟩
          · simpa [flushLoop] using hnd
          · intro j hj enq henq x hx
            have := hcl j (by simpa [flushLoop] using hj) enq henq x hx
            simpa [flushLoop] using this
      | cons j rest =>
          cases henv : env j with
          | err => simp [flushLoop, henv] at hout
          | ok enq =>
              have hall : processed ++ j :: rest = (processed ++ [j]) ++ rest := by
                simp
              obtain ⟨extra, hex⟩ := enqAll_eq_append enq (processed ++ j :: rest)
              have hdrop :
                  (enqAll (processed ++ j :: rest) enq).drop
                    (processed ++ j :: rest).length = extra := by
                rw [hex]; exact List.drop_left _ _
              have heq :
                  flushLoop env (fuel + 1) processed (j :: rest)
                    = flushLoop env fuel (processed ++ [j])
                        (rest ++ extra) := by
                simp only [flushLoop, henv, hdrop]
              have hinv1 : ((processed ++ [j]) ++ (rest ++ extra)).Nodup := by
                have : (processed ++ [j]) ++ (rest ++ extra)
                    = enqAll (processed ++ j :: rest) enq := by
                  rw [hex]; simp
                rw [this]
                exact nodup_enqAll enq _ hnd
              have hsub : ∀ x ∈ processed ++ j :: rest,
                  x ∈ (processed ++ [j]) ++ (rest ++ extra) := by
                intro x hx
                have : x ∈ (processed ++ j :: rest) ++ extra := by
                  exact List.mem_append_left _ hx
                simpa using this
              have hinv2 : ∀ a ∈ processed ++ [j], ∀ e2, env a = .ok e2 →
                  ∀ x ∈ e2, x ∈ (processed ++ [j]) ++ (rest ++ extra) := by
                intro a ha e2 he2 x hx
                rcases List.mem_append.mp ha with ha | ha
                · exact hsub x (hcl a ha e2 he2 x hx)
                · have haj : a = j := by simpa using ha
                  have he2' : env j = .ok e2 := haj ▸ he2
                  have he : e2 = enq :=
                    JobRes.ok.inj (he2'.symm.trans henv)
                  have hxe : x ∈ enq := he ▸ hx
                  have : x ∈ enqAll (processed ++ j :: rest) enq :=
                    mem_enqAll_right enq _ x hxe
                  rw [hex] at this
                  simpa using this
              have hout' := hout
              rw [heq] at hout'
              obtain ⟨⟨t, ht⟩, hndr, hclr, hq⟩ :=
                ih (processed ++ [j]) (rest ++ extra) hinv1 hinv2 hout'
              rw [heq]
              refine ⟨⟨extra ++ t, ?_⟩, hndr, hclr, hq⟩
              rw [ht]; simp

/-- The outcome reported by `flushJobsS` is the loop's outcome. -/
theorem flushJobsS_outcome (env : Nat → JobRes) (fuel : Nat)
    (s : SchedState) :
    (flushJobsS env fuel s).2.2 = (flushLoop env fuel [] s.queue).outcome := by
  unfold flushJobsS
  cases h : (flushLoop env fuel [] s.queue).outcome <;> simp [h]

/-- The run list reported by `flushJobsS` is the loop's run list. -/
theorem flushJobsS_ran (env : Nat → JobRes) (fuel : Nat)
    (s : SchedState) :
    (flushJobsS env fuel s).2.1 = (flushLoop env fuel [] s.queue).ran := by
  unfold flushJobsS
  cases h : (flushLoop env fuel [] s.queue).outcome <;> simp [h]

end Sched

/-- C6: for every job environment and every duplicate-free queue, if the
flush pass runs to exhaustion then the executed jobs list starts with the
queued jobs in insertion order, runs each job at most once, contains
every job that a ran job enqueued during the pass (same-pass execution,
not deferred), and afterwards the queue is cleared and the pending-flush
flag is reset. -/
theorem flush_visits_in_order (env : Nat → Sched.JobRes) (fuel : Nat)
    (s : Sched.SchedState) (hnd : s.queue.Nodup)
    (hout : (Sched.flushJobsS env fuel s).2.2 = .completed) :
    (∃ t, (Sched.flushJobsS env fuel s).2.1 = s.queue ++ t) ∧
    (Sched.flushJobsS env fuel s).2.1.Nodup ∧
    (∀ j ∈ (Sched.flushJobsS env fuel s).2.1, ∀ enq, env j = .ok enq →
      ∀ x ∈ enq, x ∈ (Sched.flushJobsS env fuel s).2.1) ∧
    (Sched.flushJobsS env fuel s).1.queue = [] ∧
    (Sched.flushJobsS env fuel s).1.isFlushPending = false := by
  have hout' : (Sched.flushLoop env fuel [] s.queue).outcome = .completed := by
    rw [← Sched.flushJobsS_outcome]; exact hout
  obtain ⟨⟨t, ht⟩, hndr, hclr, _⟩ :=
    Sched.flushLoop_spec env fuel [] s.queue (by simpa using hnd)
      (by intro j hj; cases hj) hout'
  rw [Sched.flushJobsS_ran]
  refine ⟨⟨t, by simpa using ht⟩, hndr, hclr, ?_, ?_⟩ <;>
    simp [Sched.flushJobsS, hout']

/-- C6 witness: a concrete flush where job 0 enqueues job 2 mid-pass. -/
theorem flush_visits_in_order_witness :
    (Sched.SchedState.mk [0, 1] true 1).queue.Nodup ∧
    (Sched.flushJobsS
      (fun j => if j = 0 then .ok [2] else .ok []) 5
      (Sched.SchedState.mk [0, 1] true 1)).2.2 = .completed ∧
    ((∃ t, (Sched.flushJobsS
      (fun j => if j = 0 then .ok [2] else .ok []) 5
      (Sched.SchedState.mk [0, 1] true 1)).2.1 = [0, 1] ++ t) ∧
    (Sched.flushJobsS
      (fun j => if j = 0 then .ok [2] else .ok []) 5
      (Sched.SchedState.mk [0, 1] true 1)).2.1.Nodup ∧
    (∀ j ∈ (Sched.flushJobsS
      (fun j => if j = 0 then .ok [2] else .ok []) 5
      (Sched.SchedState.mk [0, 1] true 1)).2.1, ∀ enq,
      (fun j => if j = 0 then Sched.JobRes.ok [2] else .ok []) j = .ok enq →
      ∀ x ∈ enq, x ∈ (Sched.flushJobsS
        (fun j => if j = 0 then .ok [2] else .ok []) 5
        (Sched.SchedState.mk [0, 1] true 1)).2.1) ∧
    (Sched.flushJobsS
      (fun j => if j = 0 then .ok [2] else .ok []) 5
      (Sched.SchedState.mk [0, 1] true 1)).1.queue = [] ∧
    (Sched.flushJobsS
      (fun j => if j = 0 then .ok [2] else .ok []) 5
      (Sched.SchedState.mk [0, 1] true 1)).1.isFlushPending = false) := by
  refine ⟨by decide, by decide, ?_⟩
  exact flush_visits_in_order _ 5 _ (by decide) (by decide)

/-- C3: evaluating the scheduler at the failing input — a queue holding
jobs 0 and 1 where job 0 raises — shows the flush aborts with the error,
job 1 never runs, the queue is not cleared, the pending-flush flag stays
set, and a subsequent `queueJob` therefore schedules no new flush: the
scheduler is wedged, contradicting the required fault isolation. -/
theorem flush_error_skips_rest :
    (Sched.flushJobsS (fun j => if j = 0 then .err else .ok []) 5
      (Sched.SchedState.mk [0, 1] true 1)).2.2 = .errored ∧
    (Sched.flushJobsS (fun j => if j = 0 then .err else .ok []) 5
      (Sched.SchedState.mk [0, 1] true 1)).2.1 = [] ∧
    (Sched.flushJobsS (fun j => if j = 0 then .err else .ok []) 5
      (Sched.SchedState.mk [0, 1] true 1)).1.queue = [0, 1] ∧
    (Sched.flushJobsS (fun j => if j = 0 then .err else .ok []) 5
      (Sched.SchedState.mk [0, 1] true 1)).1.isFlushPending = true ∧
    (Sched.queueJobS 2
      (Sched.flushJobsS (fun j => if j = 0 then .err else .ok []) 5
        (Sched.SchedState.mk [0, 1] true 1)).1).scheduleCount = 1 ∧
    (Sched.queueJobS 2
      (Sched.flushJobsS (fun j => if j = 0 then .err else .ok []) 5
        (Sched.SchedState.mk [0, 1] true 1)).1).queue = [0, 1, 2] := by
  decide

namespace CS

/-! Shallow embedding of src/day-4/app.js `computed` (lines 158-181, the
same text as day-6 lines 228-251 and day-7 lines 186-209) together with
the pieces it uses: the effect stack with `pushEffect`/`popEffect`, the
dependency sets of the getter's source ref `x` and of the computed cell's
own `(computedRef, "value")` pair, and the job queue.  The computed's
internal invalidation effect (`computedEffect`) has effect id 100; the
getter is `() => { calls++; return x.value }`, instrumented by the
`calls` counter exactly as in the spec's memoization test. -/

/-- State: the source ref `x` (value and subscriber set), the computed
cell's own subscriber set, the scheduler queue, the effect stack, and the
computed closure's `value`, `dirty` and getter-invocation counter. -/
structure CState where
  xVal : Int
  xDeps : List Nat
  cDeps : List Nat
  queue : List Nat
  isFlushPending : Bool
  effectStack : List Nat
  dirty : Bool
  value : Int
  calls : Nat
deriving DecidableEq, Repr

/-- Source `pushEffect`: push onto the stack; `activeEffect` is the top. -/
def pushEff (e : Nat) (s : CState) : CState :=
  { s with effectStack := e :: s.effectStack }

/-- Source `popEffect`: pop; `activeEffect` becomes the new top. -/
def popEff (s : CState) : CState :=
  { s with effectStack := s.effectStack.tail }

/-- Source `track(x, 'value')`: insert the active effect (stack top) into
the ref's subscriber set, if any effect is running. -/
def trackX (s : CState) : CState :=
  match s.effectStack.head? with
  | some e => { s with xDeps := addSet s.xDeps e }
  | none => s

/-- Source `track(computedRef, 'value')`. -/
def trackC (s : CState) : CState :=
  match s.effectStack.head? with
  | some e => { s with cDeps := addSet s.cDeps e }
  | none => s

/-- Source `queueJob`. -/
def queueJobC (j : Nat) (s : CState) : CState :=
  let s1 := { s with queue := addSet s.queue j }
  if s1.isFlushPending then s1 else { s1 with isFlushPending := true }

/-- Source `trigger(x, 'value')`: queue every subscriber of the ref. -/
def triggerX (s : CState) : CState :=
  s.xDeps.foldl (fun t e => queueJobC e t) s

/-- Source `trigger(computedRef, 'value')`. -/
def triggerC (s : CState) : CState :=
  s.cDeps.foldl (fun t e => queueJobC e t) s

/-- The getter `() => { calls++; return x.value }`: bump the counter and
read the ref through its tracked getter. -/
def getterRun (s : CState) : Int × CState :=
  let s1 := trackX { s with calls := s.calls + 1 }
  (s1.xVal, s1)

/-- Source computed `get value()`: when dirty, push the invalidation
effect, run the getter, pop, memoize and clear `dirty`; in every case
also track `(computedRef, 'value')` and return the memoized value. -/
def computedGetValue (s : CState) : Int × CState :=
  if s.dirty then
    let s1 := pushEff 100 s
    let p := getterRun s1
    let s2 := popEff p.2
    let s3 := { s2 with value := p.1, dirty := false }
    let s4 := trackC s3
    (s4.value, s4)
  else
    let s4 := trackC s
    (s4.value, s4)

/-- Source `computedEffect`: `dirty = true; trigger(computedRef, 'value')`
— no getter invocation. -/
def computedEffectRun (s : CState) : CState :=
  triggerC { s with dirty := true }

/-- Source ref setter for `x`: `value = newValue; trigger(x, 'value')`. -/
def xSet (v : Int) (s : CState) : CState :=
  triggerX { s with xVal := v }

theorem queueJobC_fields (j : Nat) (s : CState) :
    (queueJobC j s).queue = addSet s.queue j ∧
    (queueJobC j s).calls = s.calls ∧
    (queueJobC j s).dirty = s.dirty ∧
    (queueJobC j s).cDeps = s.cDeps ∧
    (queueJobC j s).xDeps = s.xDeps ∧
    (queueJobC j s).value = s.value ∧
    (queueJobC j s).effectStack = s.effectStack ∧
    (queueJobC j s).xVal = s.xVal := by
  unfold queueJobC
  by_cases h : s.isFlushPending <;> simp [h]

theorem foldQ_fields (l : List Nat) :
    ∀ s : CState,
      (l.foldl (fun t e => queueJobC e t) s).calls = s.calls ∧
      (l.foldl (fun t e => queueJobC e t) s).dirty = s.dirty ∧
      (l.foldl (fun t e => queueJobC e t) s).cDeps = s.cDeps ∧
      (l.foldl (fun t e => queueJobC e t) s).xDeps = s.xDeps ∧
      (l.foldl (fun t e => queueJobC e t) s).value = s.value ∧
      (l.foldl (fun t e => queueJobC e t) s).effectStack = s.effectStack ∧
      (l.foldl (fun t e => queueJobC e t) s).xVal = s.xVal := by
  induction l with
  | nil => intro s; simp
  | cons j l ih =>
      intro s
      have hq := queueJobC_fields j s
      have hl := ih (queueJobC j s)
      simp only [List.foldl_cons]
      exact ⟨hl.1.trans hq.2.1, hl.2.1.trans hq.2.2.1,
        hl.2.2.1.trans hq.2.2.2.1, hl.2.2.2.1.trans hq.2.2.2.2.1,
        hl.2.2.2.2.1.trans hq.2.2.2.2.2.1,
        hl.2.2.2.2.2.1.trans hq.2.2.2.2.2.2.1,
        hl.2.2.2.2.2.2.trans hq.2.2.2.2.2.2.2⟩

theorem foldQ_mem_of_mem_queue (l : List Nat) :
    ∀ (s : CState) (e : Nat), e ∈ s.queue →
      e ∈ (l.foldl (fun t e => queueJobC e t) s).queue := by
  induction l with
  | nil => intro s e he; simpa using he
  | cons j l ih =>
      intro s e he
      have h1 : e ∈ (queueJobC j s).queue := by
        rw [(queueJobC_fields j s).1]
        exact mem_addSet_of_mem j he
      simpa using ih (queueJobC j s) e h1

theorem foldQ_mem_of_mem_list (l : List Nat) :
    ∀ (s : CState) (e : Nat), e ∈ l →
      e ∈ (l.foldl (fun t e => queueJobC e t) s).queue := by
  induction l with
  | nil => intro s e he; cases he
  | cons j l ih =>
      intro s e he
      rcases List.mem_cons.mp he with rfl | he
      · have h1 : e ∈ (queueJobC e s).queue := by
          rw [(queueJobC_fields e s).1]
          exact mem_addSet_self s.queue e
        simpa using foldQ_mem_of_mem_queue l (queueJobC e s) e h1
      · simpa using ih (queueJobC j s) e he

/-- State after the first (dirty) read of the computed outside any
running effect: the getter ran once, subscribing the invalidation effect
100 to the source ref, the result is memoized, `dirty` is cleared. -/
def afterFirstRead (s : CState) : CState :=
  { s with xDeps := addSet s.xDeps 100, dirty := false,
           value := s.xVal, calls := s.calls + 1 }

/-- Reading a dirty computed: the getter runs once (registering the
invalidation effect 100 on the source ref), the result is memoized and
`dirty` cleared.  Stated for a read outside any running effect. -/
theorem computedGetValue_dirty (s : CState) (hd : s.dirty = true)
    (hs : s.effectStack = []) :
    computedGetValue s = (s.xVal, afterFirstRead s) := by
  simp [computedGetValue, pushEff, popEff, getterRun, trackX, trackC,
    afterFirstRead, hd, hs]

/-- Reading a clean computed outside any running effect changes nothing
and returns the memoized value: the getter is not invoked. -/
theorem computedGetValue_clean (s : CState) (hd : s.dirty = false)
    (hs : s.effectStack = []) :
    computedGetValue s = (s.value, s) := by
  simp [computedGetValue, trackC, hd, hs]

theorem xSet_calls (v : Int) (s : CState) : (xSet v s).calls = s.calls := by
  unfold xSet triggerX
  exact (foldQ_fields _ _).1

theorem xSet_dirty (v : Int) (s : CState) : (xSet v s).dirty = s.dirty := by
  unfold xSet triggerX
  exact (foldQ_fields _ _).2.1

theorem xSet_cDeps (v : Int) (s : CState) : (xSet v s).cDeps = s.cDeps := by
  unfold xSet triggerX
  exact (foldQ_fields _ _).2.2.1

theorem xSet_stack (v : Int) (s : CState) :
    (xSet v s).effectStack = s.effectStack := by
  unfold xSet triggerX
  exact (foldQ_fields _ _).2.2.2.2.2.1

theorem xSet_queue_mem (v : Int) (s : CState) (e : Nat) (h : e ∈ s.xDeps) :
    e ∈ (xSet v s).queue := by
  unfold xSet triggerX
  exact foldQ_mem_of_mem_list _ _ e h

theorem effRun_calls (s : CState) :
    (computedEffectRun s).calls = s.calls := by
  unfold computedEffectRun triggerC
  exact (foldQ_fields _ _).1

theorem effRun_dirty (s : CState) :
    (computedEffectRun s).dirty = true := by
  unfold computedEffectRun triggerC
  exact (foldQ_fields _ _).2.1

theorem effRun_stack (s : CState) :
    (computedEffectRun s).effectStack = s.effectStack := by
  unfold computedEffectRun triggerC
  exact (foldQ_fields _ _).2.2.2.2.2.1

theorem effRun_queue_mem (s : CState) (e : Nat) (h : e ∈ s.cDeps) :
    e ∈ (computedEffectRun s).queue := by
  unfold computedEffectRun triggerC
  exact foldQ_mem_of_mem_list _ _ e h

end CS

/-- C5: from any state with the computed dirty and no effect running, the
first read invokes the getter exactly once (calls rises by one) and
clears `dirty`; the second read invokes it zero further times and returns
the same value; a write to the dependency `x` queues the invalidation
effect 100 (which the first read subscribed to `x`); running that
invalidation effect does not invoke the getter — it only sets `dirty` and
queues every subscriber of `(computedRef, 'value')` — and the next read
then invokes the getter exactly once more. -/
theorem computed_memoization (s : CS.CState) (v : Int)
    (hd : s.dirty = true) (hs : s.effectStack = []) :
    (CS.computedGetValue s).2.calls = s.calls + 1 ∧
    (CS.computedGetValue s).2.dirty = false ∧
    100 ∈ (CS.computedGetValue s).2.xDeps ∧
    (CS.computedGetValue (CS.computedGetValue s).2).2.calls = s.calls + 1 ∧
    (CS.computedGetValue (CS.computedGetValue s).2).1
      = (CS.computedGetValue s).1 ∧
    100 ∈ (CS.xSet v (CS.computedGetValue (CS.computedGetValue s).2).2).queue ∧
    (CS.computedEffectRun
      (CS.xSet v (CS.computedGetValue (CS.computedGetValue s).2).2)).calls
      = s.calls + 1 ∧
    (CS.computedEffectRun
      (CS.xSet v (CS.computedGetValue (CS.computedGetValue s).2).2)).dirty
      = true ∧
    (∀ e ∈ s.cDeps, e ∈ (CS.computedEffectRun
      (CS.xSet v (CS.computedGetValue (CS.computedGetValue s).2).2)).queue) ∧
    (CS.computedGetValue (CS.computedEffectRun
      (CS.xSet v (CS.computedGetValue (CS.computedGetValue s).2).2))).2.calls
      = s.calls + 2 := by
  have h1 := CS.computedGetValue_dirty s hd hs
  have e1 : (CS.computedGetValue s).2 = CS.afterFirstRead s := by rw [h1]
  have hA2 : (CS.afterFirstRead s).effectStack = [] := hs
  have h2 : CS.computedGetValue (CS.afterFirstRead s)
      = ((CS.afterFirstRead s).value, CS.afterFirstRead s) :=
    CS.computedGetValue_clean _ rfl hA2
  have e2 : (CS.computedGetValue (CS.computedGetValue s).2).2
      = CS.afterFirstRead s := by rw [e1, h2]
  have hCdirty :
      (CS.computedEffectRun (CS.xSet v (CS.afterFirstRead s))).dirty = true :=
    CS.effRun_dirty _
  have hCstack :
      (CS.computedEffectRun (CS.xSet v (CS.afterFirstRead s))).effectStack
        = [] := by
    rw [CS.effRun_stack, CS.xSet_stack]; exact hA2
  refine ⟨?_, ?_, ?_, ?_, ?_, ?_, ?_, ?_, ?_, ?_⟩
  · rw [e1]; rfl
  · rw [e1]; rfl
  · rw [e1]; exact mem_addSet_self s.xDeps 100
  · rw [e1, h2]; rfl
  · rw [e1, h2, h1]; rfl
  · rw [e2]
    exact CS.xSet_queue_mem v _ 100 (mem_addSet_self s.xDeps 100)
  · rw [e2, CS.effRun_calls, CS.xSet_calls]; rfl
  · rw [e2]; exact hCdirty
  · intro e he
    rw [e2]
    refine CS.effRun_queue_mem _ e ?_
    rw [CS.xSet_cDeps]
    exact he
  · rw [e2, CS.computedGetValue_dirty _ hCdirty hCstack]
    show (CS.computedEffectRun (CS.xSet v (CS.afterFirstRead s))).calls + 1
      = s.calls + 2
    rw [CS.effRun_calls, CS.xSet_calls]
    rfl

/-- C5 witness: the memoization chain evaluated at a concrete state with
one subscriber (effect 5) of the computed cell. -/
theorem computed_memoization_witness :
    ((CS.CState.mk 3 [] [5] [] false [] true 0 0).dirty = true ∧
     (CS.CState.mk 3 [] [5] [] false [] true 0 0).effectStack = []) ∧
    ((CS.computedGetValue (CS.CState.mk 3 [] [5] [] false [] true 0 0)).2.calls
      = (CS.CState.mk 3 [] [5] [] false [] true 0 0).calls + 1 ∧
    (CS.computedGetValue (CS.CState.mk 3 [] [5] [] false [] true 0 0)).2.dirty = false ∧
    100 ∈ (CS.computedGetValue (CS.CState.mk 3 [] [5] [] false [] true 0 0)).2.xDeps ∧
    (CS.computedGetValue (CS.computedGetValue
      (CS.CState.mk 3 [] [5] [] false [] true 0 0)).2).2.calls
      = (CS.CState.mk 3 [] [5] [] false [] true 0 0).calls + 1 ∧
    (CS.computedGetValue (CS.computedGetValue
      (CS.CState.mk 3 [] [5] [] false [] true 0 0)).2).1
      = (CS.computedGetValue (CS.CState.mk 3 [] [5] [] false [] true 0 0)).1 ∧
    100 ∈ (CS.xSet 9 (CS.computedGetValue (CS.computedGetValue
      (CS.CState.mk 3 [] [5] [] false [] true 0 0)).2).2).queue ∧
    (CS.computedEffectRun (CS.xSet 9 (CS.computedGetValue (CS.computedGetValue
      (CS.CState.mk 3 [] [5] [] false [] true 0 0)).2).2)).calls
      = (CS.CState.mk 3 [] [5] [] false [] true 0 0).calls + 1 ∧
    (CS.computedEffectRun (CS.xSet 9 (CS.computedGetValue (CS.computedGetValue
      (CS.CState.mk 3 [] [5] [] false [] true 0 0)).2).2)).dirty = true ∧
    (∀ e ∈ (CS.CState.mk 3 [] [5] [] false [] true 0 0).cDeps,
      e ∈ (CS.computedEffectRun (CS.xSet 9 (CS.computedGetValue
        (CS.computedGetValue
          (CS.CState.mk 3 [] [5] [] false [] true 0 0)).2).2)).queue) ∧
    (CS.computedGetValue (CS.computedEffectRun (CS.xSet 9 (CS.computedGetValue
      (CS.computedGetValue
        (CS.CState.mk 3 [] [5] [] false [] true 0 0)).2).2))).2.calls
      = (CS.CState.mk 3 [] [5] [] false [] true 0 0).calls + 2) :=
  ⟨⟨rfl, rfl⟩, computed_memoization (CS.CState.mk 3 [] [5] [] false [] true 0 0)
    9 rfl rfl⟩

namespace D7

/-! Shallow embedding of the src/day-7/app.js observation layer: an
explicit heap of numbered objects holding string-keyed fields, the
dependency map from (target id, key) to subscriber lists, and the
`reactive` proxy traps.  A stored `Val.proxy o` is a reactive proxy over
raw target `o` (a `ref` is such a proxy whose target carries a raw
`__v_isRef: true` field, per `ref(v) = reactive({__v_isRef: true,
value: v})`).  Model restriction: re-wrapping an already-proxied value in
`reactive` is identified with the proxy itself. -/

/-- A JavaScript value as it occurs in this engine's heaps. -/
inductive Val where
  | undefined : Val
  | int (n : Int) : Val
  | bool (b : Bool) : Val
  | str (t : String) : Val
  | obj (o : Nat) : Val
  | proxy (o : Nat) : Val
deriving DecidableEq, Repr

/-- JavaScript truthiness, as used by `!!(value && value.__v_isRef)`. -/
def truthy : Val → Bool
  | .undefined => false
  | .int n => n ≠ 0
  | .bool b => b
  | .str t => t ≠ ""
  | .obj _ => true
  | .proxy _ => true

/-- Source `isObject(val)`: a non-null object (proxies are objects). -/
def isObjectV : Val → Bool
  | .obj _ => true
  | .proxy _ => true
  | _ => false

/-- Source `reactive(target)` applied to a read result: objects are
wrapped in a proxy; primitives pass through.  Re-wrapping a proxy is
identified with the proxy. -/
def reactiveWrap : Val → Val
  | .obj o => .proxy o
  | v => v

/-- The heap: object id to field list. -/
def Heap : Type := List (Nat × List (String × Val))

instance : DecidableEq Heap := by
  unfold Heap; infer_instance

/-- Raw property read, as `Reflect.get` on the underlying target; a
missing key or object reads as `undefined`. -/
def rawGet (h : Heap) (t : Nat) (k : String) : Val :=
  match lookupA h t with
  | some flds => (lookupA flds k).getD .undefined
  | none => .undefined

/-- Raw property write, as `Reflect.set` on the underlying target. -/
def rawSetH (h : Heap) (t : Nat) (k : String) (v : Val) : Heap :=
  setA h t (setA ((lookupA h t).getD []) k v)

/-- Engine state: heap, dependency map (`targetMap`), job queue with
pending flag, and the effect stack (`activeEffect` is its top). -/
structure D7State where
  heap : Heap
  deps : List ((Nat × String) × List Nat)
  queue : List Nat
  isFlushPending : Bool
  effectStack : List Nat
deriving DecidableEq

/-- Subscriber list of one (target, key) pair (empty when absent). -/
def getDeps (s : D7State) (t : Nat) (k : String) : List Nat :=
  (lookupA s.deps (t, k)).getD []

/-- Source `track(target, key)`: insert the active effect (stack top)
into the pair's subscriber set, creating entries as needed. -/
def trackD (t : Nat) (k : String) (s : D7State) : D7State :=
  match s.effectStack.head? with
  | some e => { s with deps := setA s.deps (t, k) (addSet (getDeps s t k) e) }
  | none => s

/-- Source `queueJob`. -/
def queueJobD (j : Nat) (s : D7State) : D7State :=
  let s1 := { s with queue := addSet s.queue j }
  if s1.isFlushPending then s1 else { s1 with isFlushPending := true }

/-- Source `trigger(target, key)`: queue every subscriber of the pair. -/
def triggerD (t : Nat) (k : String) (s : D7State) : D7State :=
  (getDeps s t k).foldl (fun t' e => queueJobD e t') s

/-- Source `reactive` get trap body, with the `isRef` probe inlined per
value shape and `rec` standing for a recursive trap invocation on an
inner proxy.  `Reflect.get` yields the raw stored value; when it is a
proxy, `isRef(result)` reads `result.__v_isRef` through the inner trap
and, when truthy, the trap returns `result.value` — again through the
inner trap — without tracking the outer pair; when it is a raw object,
`isRef` reads `__v_isRef` directly off the object with no trap;
otherwise `isRef` is false.  In the non-ref cases the trap tracks
`(target, key)` and wraps object results in `reactive`. -/
def proxyGetStep
    (rec : Nat → String → D7State → Option (Val × D7State))
    (t : Nat) (k : String) (s : D7State) : Option (Val × D7State) :=
  match rawGet s.heap t k with
  | .proxy o =>
      match rec o "__v_isRef" s with
      | none => none
      | some (b, s1) =>
          if truthy b then rec o "value" s1
          else some (reactiveWrap (.proxy o), trackD t k s1)
  | .obj o =>
      if truthy (rawGet s.heap o "__v_isRef") then
        some (rawGet s.heap o "value", s)
      else some (reactiveWrap (.obj o), trackD t k s)
  | v => some (v, trackD t k s)

/-- Source `reactive` get trap: `proxyGetStep` closed under trap
recursion through proxy-valued fields, bounded by fuel. -/
def proxyGetF : Nat → Nat → String → D7State → Option (Val × D7State)
  | 0, _, _, _ => none
  | fuel + 1, t, k, s => proxyGetStep (proxyGetF fuel) t k s

/-- Source array `Reflect.set`: write the key; when the key is a numeric
index at or beyond the current `length`, the array's `length` rises to
index + 1 (the exotic array behaviour, not routed through the trap). -/
def rawSetArr (h : Heap) (t : Nat) (k : String) (v : Val) : Heap :=
  let h1 := rawSetH h t k v
  match k.toNat? with
  | some n =>
      match rawGet h t "length" with
      | .int len => if len ≤ (n : Int)
          then rawSetH h1 t "length" (.int ((n : Int) + 1)) else h1
      | _ => h1
  | none => h1

/-- Source specialized array set trap (day-7 lines 95-110): capture the
prior value, perform the raw write, and when the stored value changed,
trigger the written key and — unless the write was to `length` itself —
the `length` key as well.  Returns `Reflect.set`'s success. -/
def arraySet (t : Nat) (k : String) (v : Val) (s : D7State) :
    Bool × D7State :=
  let oldValue := rawGet s.heap t k
  let s1 := { s with heap := rawSetArr s.heap t k v }
  if oldValue ≠ v then
    let s2 := triggerD t k s1
    let s3 := if k ≠ "length" then triggerD t "length" s2 else s2
    (true, s3)
  else (true, s1)

theorem trackD_heap (t : Nat) (k : String) (s : D7State) :
    (trackD t k s).heap = s.heap := by
  unfold trackD
  cases s.effectStack.head? <;> simp

theorem trackD_queue (t : Nat) (k : String) (s : D7State) :
    (trackD t k s).queue = s.queue := by
  unfold trackD
  cases s.effectStack.head? <;> simp

theorem queueJobD_queue (j : Nat) (s : D7State) :
    (queueJobD j s).queue = addSet s.queue j := by
  unfold queueJobD
  by_cases h : s.isFlushPending <;> simp [h]

theorem queueJobD_deps (j : Nat) (s : D7State) :
    (queueJobD j s).deps = s.deps := by
  unfold queueJobD
  by_cases h : s.isFlushPending <;> simp [h]

theorem queueJobD_heap (j : Nat) (s : D7State) :
    (queueJobD j s).heap = s.heap := by
  unfold queueJobD
  by_cases h : s.isFlushPending <;> simp [h]

theorem foldD_deps (l : List Nat) :
    ∀ s : D7State,
      (l.foldl (fun t e => queueJobD e t) s).deps = s.deps := by
  induction l with
  | nil => intro s; simp
  | cons j l ih =>
      intro s
      simpa using (ih (queueJobD j s)).trans (queueJobD_deps j s)

theorem foldD_heap (l : List Nat) :
    ∀ s : D7State,
      (l.foldl (fun t e => queueJobD e t) s).heap = s.heap := by
  induction l with
  | nil => intro s; simp
  | cons j l ih =>
      intro s
      simpa using (ih (queueJobD j s)).trans (queueJobD_heap j s)

theorem foldD_mem_of_mem_queue (l : List Nat) :
    ∀ (s : D7State) (e : Nat), e ∈ s.queue →
      e ∈ (l.foldl (fun t e => queueJobD e t) s).queue := by
  induction l with
  | nil => intro s e he; simpa using he
  | cons j l ih =>
      intro s e he
      have h1 : e ∈ (queueJobD j s).queue := by
        rw [queueJobD_queue]
        exact mem_addSet_of_mem j he
      simpa using ih (queueJobD j s) e h1

theorem foldD_mem_of_mem_list (l : List Nat) :
    ∀ (s : D7State) (e : Nat), e ∈ l →
      e ∈ (l.foldl (fun t e => queueJobD e t) s).queue := by
  induction l with
  | nil => intro s e he; cases he
  | cons j l ih =>
      intro s e he
      rcases List.mem_cons.mp he with rfl | he
      · have h1 : e ∈ (queueJobD e s).queue := by
          rw [queueJobD_queue]
          exact mem_addSet_self s.queue e
        simpa using foldD_mem_of_mem_queue l (queueJobD e s) e h1
      · simpa using ih (queueJobD j s) e he

theorem foldD_queue_subset (l : List Nat) :
    ∀ (s : D7State) (e : Nat),
      e ∈ (l.foldl (fun t e => queueJobD e t) s).queue →
        e ∈ s.queue ∨ e ∈ l := by
  induction l with
  | nil => intro s e he; exact Or.inl (by simpa using he)
  | cons j l ih =>
      intro s e he
      rcases ih (queueJobD j s) e (by simpa using he) with h | h
      · rw [queueJobD_queue] at h
        rcases mem_addSet_iff.mp h with h | rfl
        · exact Or.inl h
        · exact Or.inr (List.mem_cons_self _ _)
      · exact Or.inr (List.mem_cons_of_mem _ h)

theorem triggerD_deps (t : Nat) (k : String) (s : D7State) :
    (triggerD t k s).deps = s.deps := by
  unfold triggerD
  exact foldD_deps _ _

theorem triggerD_heap (t : Nat) (k : String) (s : D7State) :
    (triggerD t k s).heap = s.heap := by
  unfold triggerD
  exact foldD_heap _ _

theorem triggerD_mem_of_dep (t : Nat) (k : String) (s : D7State) (e : Nat)
    (h : e ∈ getDeps s t k) : e ∈ (triggerD t k s).queue := by
  unfold triggerD
  exact foldD_mem_of_mem_list _ _ e h

theorem triggerD_mem_of_mem_queue (t : Nat) (k : String) (s : D7State)
    (e : Nat) (h : e ∈ s.queue) : e ∈ (triggerD t k s).queue := by
  unfold triggerD
  exact foldD_mem_of_mem_queue _ _ e h

theorem triggerD_queue_subset (t : Nat) (k : String) (s : D7State)
    (e : Nat) (h : e ∈ (triggerD t k s).queue) :
    e ∈ s.queue ∨ e ∈ getDeps s t k := by
  unfold triggerD at h
  exact foldD_queue_subset _ _ e h

/-- Dependency lookup after a track of the same pair contains the
tracked effect. -/
theorem getDeps_trackD_self (t : Nat) (k : String) (s : D7State) (e : Nat)
    (h : s.effectStack.head? = some e) :
    e ∈ getDeps (trackD t k s) t k := by
  unfold trackD getDeps
  rw [h]
  simp only
  rw [lookupA_setA_same]
  simpa using mem_addSet_self (getDeps s t k) e

/-- Dependency lookup of a different pair is unchanged by a track. -/
theorem getDeps_trackD_other (t : Nat) (k : String) (s : D7State)
    (t' : Nat) (k' : String) (hne : (t', k') ≠ (t, k)) :
    getDeps (trackD t k s) t' k' = getDeps s t' k' := by
  unfold trackD getDeps
  cases h : s.effectStack.head? with
  | none => rfl
  | some e =>
      simp only
      rw [lookupA_setA_other _ _ hne]

/-- Tracking one pair can only grow another pair's subscriber list
membership-wise (the tracked pair gains the effect, others unchanged). -/
theorem getDeps_trackD_mono (t : Nat) (k : String) (s : D7State)
    (t' : Nat) (k' : String) (e : Nat) (h : e ∈ getDeps s t' k') :
    e ∈ getDeps (trackD t k s) t' k' := by
  by_cases hp : (t', k') = (t, k)
  · have h1 : t' = t := congrArg Prod.fst hp
    have h2 : k' = k := congrArg Prod.snd hp
    subst h1; subst h2
    unfold trackD getDeps
    cases hh : s.effectStack.head? with
    | none => exact h
    | some e2 =>
        simp only
        rw [lookupA_setA_same]
        simpa using mem_addSet_of_mem e2 h
  · rw [getDeps_trackD_other t k s t' k' hp]
    exact h

theorem trackD_stack (t : Nat) (k : String) (s : D7State) :
    (trackD t k s).effectStack = s.effectStack := by
  unfold trackD
  cases s.effectStack.head? <;> simp

theorem getDeps_triggerD (t : Nat) (k : String) (t' : Nat) (k' : String)
    (s : D7State) : getDeps (triggerD t k s) t' k' = getDeps s t' k' := by
  unfold getDeps
  rw [triggerD_deps]

theorem proxyGetF_two (t : Nat) (k : String) (s : D7State) :
    proxyGetF 2 t k s = proxyGetStep (proxyGetF 1) t k s := rfl

theorem proxyGetF_three (t : Nat) (k : String) (s : D7State) :
    proxyGetF 3 t k s = proxyGetStep (proxyGetF 2) t k s := rfl

/-- Concrete array state for the append write: object 0 is an array
holding 1 and 2 with length 2; effect 7 subscribes to (0, "length") and
effect 8 to (0, "2"); the queue is empty. -/
def arrEx : D7State :=
  ⟨[(0, [("0", .int 1), ("1", .int 2), ("length", .int 2)])],
   [((0, "length"), [7]), ((0, "2"), [8])], [], false, []⟩

/-- Concrete input for the ref-unwrap read: target 0 stores at key
"count" a ref proxy over object 1 (whose raw fields are `__v_isRef:
true` and `value: 5`); effect 3 is the running effect; no dependencies
exist yet. -/
def d7ex : D7State :=
  ⟨[(0, [("count", .proxy 1)]),
    (1, [("__v_isRef", .bool true), ("value", .int 5)])],
   [], [], false, [3]⟩

end D7

/-- C4 counterexample: at a concrete reactive object whose raw stored
value at key "count" is a ref, with effect 3 running, the get trap
returns the unwrapped value 5 — but `track(target, key)` is never called
for the outer pair: after the read, (0, "count") has no subscriber entry
at all, while the effect was registered on the ref's own (1, "value")
pair instead.  This falsifies the claim that the read registers the
running effect as a subscriber of the outer (target, key) pair. -/
theorem ref_read_skips_outer_track :
    (D7.proxyGetF 3 0 "count" D7.d7ex).map Prod.fst
      = some (D7.Val.int 5) ∧
    (D7.proxyGetF 3 0 "count" D7.d7ex).map
      (fun p => lookupA p.2.deps (0, "count")) = some none ∧
    (D7.proxyGetF 3 0 "count" D7.d7ex).map
      (fun p => lookupA p.2.deps (1, "value")) = some (some [3]) := by
  decide

/-- C4 (amended): for every reactive proxy read of a key whose raw
stored value is a ref (a proxy over a target `r` with raw `__v_isRef:
true` and a primitive `value` slot), the trap returns the ref's
unwrapped value, but skips `track(target, key)` on the outer pair: the
outer pair's subscriber list is unchanged, and the running effect is
instead registered on the ref's own (r, "value") and (r, "__v_isRef")
entries through the unwrapping reads that go through the ref's proxy.
The heap is untouched. -/
theorem get_trap_unwraps_ref (s : D7.D7State) (t r : Nat) (k : String)
    (v : Int) (e : Nat)
    (hres : D7.rawGet s.heap t k = .proxy r)
    (href : D7.rawGet s.heap r "__v_isRef" = .bool true)
    (hval : D7.rawGet s.heap r "value" = .int v)
    (hstk : s.effectStack.head? = some e)
    (hne1 : (t, k) ≠ (r, "__v_isRef"))
    (hne2 : (t, k) ≠ (r, "value")) :
    D7.proxyGetF 3 t k s
      = some (.int v, D7.trackD r "value" (D7.trackD r "__v_isRef" s)) ∧
    e ∈ D7.getDeps (D7.trackD r "value" (D7.trackD r "__v_isRef" s))
      r "value" ∧
    e ∈ D7.getDeps (D7.trackD r "value" (D7.trackD r "__v_isRef" s))
      r "__v_isRef" ∧
    D7.getDeps (D7.trackD r "value" (D7.trackD r "__v_isRef" s)) t k
      = D7.getDeps s t k ∧
    (D7.trackD r "value" (D7.trackD r "__v_isRef" s)).heap = s.heap := by
  have h1 : D7.proxyGetF 2 r "__v_isRef" s
      = some (.bool true, D7.trackD r "__v_isRef" s) := by
    rw [D7.proxyGetF_two]
    unfold D7.proxyGetStep
    rw [href]
  have hval2 : D7.rawGet (D7.trackD r "__v_isRef" s).heap r "value"
      = .int v := by
    rw [D7.trackD_heap]; exact hval
  have h2 : D7.proxyGetF 2 r "value" (D7.trackD r "__v_isRef" s)
      = some (.int v, D7.trackD r "value" (D7.trackD r "__v_isRef" s)) := by
    rw [D7.proxyGetF_two]
    unfold D7.proxyGetStep
    rw [hval2]
  have hstk2 : (D7.trackD r "__v_isRef" s).effectStack.head? = some e := by
    rw [D7.trackD_stack]; exact hstk
  refine ⟨?_, ?_, ?_, ?_, ?_⟩
  · rw [D7.proxyGetF_three]
    unfold D7.proxyGetStep
    rw [hres]
    simp [h1, h2, D7.truthy]
  · exact D7.getDeps_trackD_self r "value" (D7.trackD r "__v_isRef" s) e hstk2
  · exact D7.getDeps_trackD_mono r "value" (D7.trackD r "__v_isRef" s)
      r "__v_isRef" e (D7.getDeps_trackD_self r "__v_isRef" s e hstk)
  · rw [D7.getDeps_trackD_other _ _ _ _ _ hne2,
        D7.getDeps_trackD_other _ _ _ _ _ hne1]
  · rw [D7.trackD_heap, D7.trackD_heap]

/-- C4 amended-claim witness: the unwrapping read evaluated at the
concrete input, with every hypothesis discharged. -/
theorem get_trap_unwraps_ref_witness :
    (D7.rawGet D7.d7ex.heap 0 "count" = .proxy 1 ∧
     D7.rawGet D7.d7ex.heap 1 "__v_isRef" = .bool true ∧
     D7.rawGet D7.d7ex.heap 1 "value" = .int 5 ∧
     D7.d7ex.effectStack.head? = some 3 ∧
     ((0 : Nat), "count") ≠ ((1 : Nat), "__v_isRef") ∧
     ((0 : Nat), "count") ≠ ((1 : Nat), "value")) ∧
    (D7.proxyGetF 3 0 "count" D7.d7ex
      = some (.int 5, D7.trackD 1 "value" (D7.trackD 1 "__v_isRef" D7.d7ex)) ∧
     3 ∈ D7.getDeps (D7.trackD 1 "value" (D7.trackD 1 "__v_isRef" D7.d7ex))
       1 "value" ∧
     3 ∈ D7.getDeps (D7.trackD 1 "value" (D7.trackD 1 "__v_isRef" D7.d7ex))
       1 "__v_isRef" ∧
     D7.getDeps (D7.trackD 1 "value" (D7.trackD 1 "__v_isRef" D7.d7ex))
       0 "count" = D7.getDeps D7.d7ex 0 "count" ∧
     (D7.trackD 1 "value" (D7.trackD 1 "__v_isRef" D7.d7ex)).heap
       = D7.d7ex.heap) :=
  ⟨⟨by decide, by decide, by decide, by decide, by decide, by decide⟩,
   get_trap_unwraps_ref D7.d7ex 0 1 "count" 5 3 (by decide) (by decide)
     (by decide) (by decide) (by decide) (by decide)⟩

/-- C8: for every reactive array proxy write that changes the stored
value, the trap reports success and performs the raw write (including
the length growth `Reflect.set` does for an index at or past the current
length); when the written key is not "length", every subscriber of that
key and every subscriber of "length" is queued — so an effect that read
`.length` is re-scheduled by an append-style index write; when the
written key is "length" itself, the subscribers of "length" are queued
and nothing outside the prior queue and those subscribers is queued. -/
theorem array_write_schedules (s : D7.D7State) (t : Nat) (k : String)
    (v : D7.Val) (e : Nat) (hch : D7.rawGet s.heap t k ≠ v) :
    (D7.arraySet t k v s).1 = true ∧
    (D7.arraySet t k v s).2.heap = D7.rawSetArr s.heap t k v ∧
    (k ≠ "length" →
      (e ∈ D7.getDeps s t k ∨ e ∈ D7.getDeps s t "length") →
        e ∈ (D7.arraySet t k v s).2.queue) ∧
    (k = "length" →
      ((e ∈ D7.getDeps s t "length" → e ∈ (D7.arraySet t k v s).2.queue) ∧
       (e ∈ (D7.arraySet t k v s).2.queue →
         e ∈ s.queue ∨ e ∈ D7.getDeps s t "length"))) := by
  have harr : D7.arraySet t k v s
      = (true,
         if k ≠ "length"
         then D7.triggerD t "length" (D7.triggerD t k
           { s with heap := D7.rawSetArr s.heap t k v })
         else D7.triggerD t k
           { s with heap := D7.rawSetArr s.heap t k v }) := by
    simp [D7.arraySet, hch]
  by_cases hk : k = "length"
  · subst hk
    rw [harr, if_neg (by simp : ¬ ("length" : String) ≠ "length")]
    refine ⟨rfl, D7.triggerD_heap _ _ _, ?_, ?_⟩
    · intro hcon
      exact absurd rfl hcon
    · intro _
      refine ⟨fun hdep => D7.triggerD_mem_of_dep _ _ _ e hdep,
        fun hq => ?_⟩
      exact D7.triggerD_queue_subset t "length"
        { s with heap := D7.rawSetArr s.heap t "length" v } e hq
  · rw [harr, if_pos hk]
    refine ⟨rfl, ?_, ?_, ?_⟩
    · rw [D7.triggerD_heap, D7.triggerD_heap]
    · intro _ hdep
      rcases hdep with hdep | hdep
      · exact D7.triggerD_mem_of_mem_queue _ _ _ e
          (D7.triggerD_mem_of_dep _ _ _ e hdep)
      · refine D7.triggerD_mem_of_dep _ _ _ e ?_
        rw [D7.getDeps_triggerD]
        exact hdep
    · intro hcon
      exact absurd hcon hk

/-- C8 witness: a concrete append to a reactive array of length 2 —
writing index "2" — re-schedules effect 7, which subscribed to the
array's "length" key. -/
theorem array_write_schedules_witness :
    (D7.rawGet D7.arrEx.heap 0 "2" ≠ D7.Val.int 9) ∧
    ((D7.arraySet 0 "2" (.int 9) D7.arrEx).1 = true ∧
     (D7.arraySet 0 "2" (.int 9) D7.arrEx).2.heap
       = D7.rawSetArr D7.arrEx.heap 0 "2" (.int 9) ∧
     (("2" : String) ≠ "length" →
       (7 ∈ D7.getDeps D7.arrEx 0 "2" ∨ 7 ∈ D7.getDeps D7.arrEx 0 "length") →
         7 ∈ (D7.arraySet 0 "2" (.int 9) D7.arrEx).2.queue) ∧
     (("2" : String) = "length" →
       ((7 ∈ D7.getDeps D7.arrEx 0 "length" →
          7 ∈ (D7.arraySet 0 "2" (.int 9) D7.arrEx).2.queue) ∧
        (7 ∈ (D7.arraySet 0 "2" (.int 9) D7.arrEx).2.queue →
          7 ∈ D7.arrEx.queue ∨ 7 ∈ D7.getDeps D7.arrEx 0 "length")))) :=
  ⟨by decide, array_write_schedules D7.arrEx 0 "2" (.int 9) 7 (by decide)⟩

namespace D6

/-! Shallow embedding of the src/day-6/app.js `readonly` proxy write and
delete traps (lines 70-88).  Both traps ignore their arguments entirely:
they emit a `console.warn` diagnostic and return `true`, so the
underlying storage is never written, no trigger fires, and the caller
observes apparent success.  Warnings are counted in the state. -/

/-- Engine state for day-6: heap, dependency map, job queue with pending
flag, effect stack, and a count of emitted warnings. -/
structure D6State where
  heap : D7.Heap
  deps : List ((Nat × String) × List Nat)
  queue : List Nat
  isFlushPending : Bool
  effectStack : List Nat
  warnings : Nat
deriving DecidableEq

/-- Source readonly set trap: `console.warn('Cannot set readonly
property.'); return true` — the arguments are ignored. -/
def readonlySet (_t : Nat) (_k : String) (_v : D7.Val) (s : D6State) :
    Bool × D6State :=
  (true, { s with warnings := s.warnings + 1 })

/-- Source readonly delete trap: `console.warn('Cannot delete readonly
property.'); return true`. -/
def readonlyDelete (_t : Nat) (_k : String) (s : D6State) :
    Bool × D6State :=
  (true, { s with warnings := s.warnings + 1 })

end D6

/-- C7: for every readonly proxy, an attempted property write or delete
reports a warning-level diagnostic and returns apparent success to the
caller, while the underlying storage is byte-for-byte unchanged, the
dependency map is untouched, nothing is queued and no flush is scheduled
— in particular no subscriber of the affected (target, key) is
triggered. -/
theorem readonly_write_rejected (s : D6.D6State) (t : Nat) (k : String)
    (v : D7.Val) :
    (D6.readonlySet t k v s).1 = true ∧
    (D6.readonlySet t k v s).2.heap = s.heap ∧
    (D6.readonlySet t k v s).2.deps = s.deps ∧
    (D6.readonlySet t k v s).2.queue = s.queue ∧
    (D6.readonlySet t k v s).2.isFlushPending = s.isFlushPending ∧
    (D6.readonlySet t k v s).2.warnings = s.warnings + 1 ∧
    (D6.readonlyDelete t k s).1 = true ∧
    (D6.readonlyDelete t k s).2.heap = s.heap ∧
    (D6.readonlyDelete t k s).2.deps = s.deps ∧
    (D6.readonlyDelete t k s).2.queue = s.queue ∧
    (D6.readonlyDelete t k s).2.isFlushPending = s.isFlushPending ∧
    (D6.readonlyDelete t k s).2.warnings = s.warnings + 1 :=
  ⟨rfl, rfl, rfl, rfl, rfl, rfl, rfl, rfl, rfl, rfl, rfl, rfl⟩

namespace D2

/-! Shallow embedding of the src/day-2/app.js reactive layer: `reactive`
allocates a fresh Proxy for its target on every call (there is no proxy
cache), `track` keys dependencies on the raw target, and `trigger` runs
every subscriber synchronously (`dep.forEach(effect => effect())` — day-2
has no scheduler).  Proxy identities are explicit: `proxyT` maps each
allocated proxy id to its raw target id and `nextId` is the allocation
counter.  Effect invocations are recorded in `ran`. -/

/-- A day-2 value: primitives, raw objects, or allocated proxies. -/
inductive D2Val where
  | undefined : D2Val
  | int (n : Int) : D2Val
  | str (t : String) : D2Val
  | obj (o : Nat) : D2Val
  | proxyv (p : Nat) : D2Val
deriving DecidableEq, Repr

/-- Engine state: raw heap, proxy table, allocation counter, dependency
map, the `activeEffect` variable, and the invocation log. -/
structure D2State where
  heap : List (Nat × List (String × D2Val))
  proxyT : List (Nat × Nat)
  nextId : Nat
  deps : List ((Nat × String) × List Nat)
  activeEffect : Option Nat
  ran : List Nat
deriving DecidableEq

/-- Raw property read on the underlying target (`Reflect.get`). -/
def rawGet2 (h : List (Nat × List (String × D2Val))) (t : Nat)
    (k : String) : D2Val :=
  match lookupA h t with
  | some flds => (lookupA flds k).getD .undefined
  | none => .undefined

/-- Raw property write on the underlying target (`Reflect.set`). -/
def rawSet2 (h : List (Nat × List (String × D2Val))) (t : Nat)
    (k : String) (v : D2Val) : List (Nat × List (String × D2Val)) :=
  setA h t (setA ((lookupA h t).getD []) k v)

/-- Subscriber list of one (raw target, key) pair. -/
def getDeps2 (s : D2State) (t : Nat) (k : String) : List Nat :=
  (lookupA s.deps (t, k)).getD []

/-- Source `track(target, key)`: insert the active effect into the raw
target's pair, creating entries as needed. -/
def track2 (t : Nat) (k : String) (s : D2State) : D2State :=
  match s.activeEffect with
  | some e =>
      { s with deps := setA s.deps (t, k) (addSet (getDeps2 s t k) e) }
  | none => s

/-- Source `reactive(target)` on a raw target: allocate a fresh Proxy
identity wrapping it. -/
def reactiveAlloc (t : Nat) (s : D2State) : Nat × D2State :=
  (s.nextId,
   { s with proxyT := setA s.proxyT s.nextId t, nextId := s.nextId + 1 })

/-- Source day-2 get trap: `Reflect.get`, then `track(target, key)`, then
wrap object results in a fresh `reactive` proxy (a new proxy per read).
Model restriction: a stored proxy value passes through unwrapped. -/
def proxyGet2 (p : Nat) (k : String) (s : D2State) : D2Val × D2State :=
  match lookupA s.proxyT p with
  | none => (.undefined, s)
  | some t =>
      let res := rawGet2 s.heap t k
      let s1 := track2 t k s
      match res with
      | .obj o =>
          let pr := reactiveAlloc o s1
          (.proxyv pr.1, pr.2)
      | v => (v, s1)

/-- Source day-2 wrapped effect closure: set `activeEffect`, run the
body, reset `activeEffect` to null; the invocation is logged in `ran`. -/
def effectRun2 (body : D2State → D2State) (e : Nat) (s : D2State) :
    D2State :=
  let s1 := body { s with activeEffect := some e, ran := s.ran ++ [e] }
  { s1 with activeEffect := none }

/-- An effect body that re-reads key `k2` through wrapper `p1`. -/
def readBody (p1 : Nat) (k2 : String) : D2State → D2State :=
  fun s => (proxyGet2 p1 k2 s).2

/-- The environment mapping each subscriber to its wrapped closure. -/
def envOf2 (body : D2State → D2State) : Nat → D2State → D2State :=
  fun e s => effectRun2 body e s

/-- Source `trigger(target, key)`: run every subscriber immediately. -/
def trigger2 (env : Nat → D2State → D2State) (t : Nat) (k : String)
    (s : D2State) : D2State :=
  (getDeps2 s t k).foldl (fun s' e => env e s') s

/-- Source day-2 set trap: capture the prior value, `Reflect.set`, and
when the stored value changed, trigger the raw target's pair
synchronously.  Returns `Reflect.set`'s success. -/
def proxySet2 (env : Nat → D2State → D2State) (p : Nat) (k : String)
    (v : D2Val) (s : D2State) : Bool × D2State :=
  match lookupA s.proxyT p with
  | none => (true, s)
  | some t =>
      let old := rawGet2 s.heap t k
      let s1 := { s with heap := rawSet2 s.heap t k v }
      if old ≠ v then (true, trigger2 env t k s1) else (true, s1)

/-- State after one wrap-on-read allocation over raw child `c`. -/
def allocOne (c : Nat) (s : D2State) : D2State :=
  { s with proxyT := setA s.proxyT s.nextId c, nextId := s.nextId + 1 }

theorem track2_ran (t : Nat) (k : String) (s : D2State) :
    (track2 t k s).ran = s.ran := by
  unfold track2
  cases s.activeEffect <;> simp

theorem track2_heap (t : Nat) (k : String) (s : D2State) :
    (track2 t k s).heap = s.heap := by
  unfold track2
  cases s.activeEffect <;> simp

theorem track2_proxyT (t : Nat) (k : String) (s : D2State) :
    (track2 t k s).proxyT = s.proxyT := by
  unfold track2
  cases s.activeEffect <;> simp

theorem proxyGet2_ran (p : Nat) (k : String) (s : D2State) :
    ((proxyGet2 p k s).2).ran = s.ran := by
  unfold proxyGet2
  cases lookupA s.proxyT p with
  | none => rfl
  | some t =>
      simp only
      cases rawGet2 s.heap t k <;>
        simp [reactiveAlloc, track2_ran]

theorem readBody_ran (p1 : Nat) (k2 : String) (s : D2State) :
    (readBody p1 k2 s).ran = s.ran :=
  proxyGet2_ran p1 k2 s

theorem effectRun2_ran (body : D2State → D2State)
    (hbody : ∀ s', (body s').ran = s'.ran) (e : Nat) (s : D2State) :
    (effectRun2 body e s).ran = s.ran ++ [e] := by
  unfold effectRun2
  simp [hbody]

theorem fold_effectRun2_ran_mem (body : D2State → D2State)
    (hbody : ∀ s', (body s').ran = s'.ran) :
    ∀ (l : List Nat) (s : D2State) (x : Nat),
      x ∈ s.ran ∨ x ∈ l →
        x ∈ (l.foldl (fun s' e' => effectRun2 body e' s') s).ran := by
  intro l
  induction l with
  | nil =>
      intro s x hx
      rcases hx with hx | hx
      · simpa using hx
      · cases hx
  | cons j l ih =>
      intro s x hx
      have hstep : (effectRun2 body j s).ran = s.ran ++ [j] :=
        effectRun2_ran body hbody j s
      rcases hx with hx | hx
      · refine ih (effectRun2 body j s) x (Or.inl ?_)
        rw [hstep]
        exact List.mem_append_left _ hx
      · rcases List.mem_cons.mp hx with rfl | hx
        · refine ih (effectRun2 body x s) x (Or.inl ?_)
          rw [hstep]
          simp
        · exact ih (effectRun2 body j s) x (Or.inr hx)

theorem trigger2_envOf2_ran_mem (body : D2State → D2State)
    (hbody : ∀ s', (body s').ran = s'.ran) (t : Nat) (k : String)
    (s : D2State) (x : Nat) (hx : x ∈ getDeps2 s t k) :
    x ∈ (trigger2 (envOf2 body) t k s).ran := by
  unfold trigger2 envOf2
  exact fold_effectRun2_ran_mem body hbody (getDeps2 s t k) s x (Or.inr hx)

theorem getDeps2_track2_self (t : Nat) (k : String) (s : D2State)
    (e : Nat) (h : s.activeEffect = some e) :
    e ∈ getDeps2 (track2 t k s) t k := by
  unfold track2 getDeps2
  rw [h]
  simp only
  rw [lookupA_setA_same]
  simpa using mem_addSet_self (getDeps2 s t k) e

/-- Reading a key whose raw stored value is a plain object: the trap
tracks the raw pair and returns a freshly allocated wrapper over the raw
child. -/
theorem proxyGet2_obj (s : D2State) (p t c : Nat) (k : String)
    (hp : lookupA s.proxyT p = some t)
    (hobj : rawGet2 s.heap t k = .obj c)
    (hae : s.activeEffect = none) :
    proxyGet2 p k s = (.proxyv s.nextId, allocOne c s) := by
  simp [proxyGet2, hp, hobj, track2, hae, reactiveAlloc, allocOne]

/-- Reading a key whose raw stored value is a primitive: the trap tracks
the raw pair and returns the value. -/
theorem proxyGet2_int (s : D2State) (p c : Nat) (k2 : String) (u : Int)
    (hp : lookupA s.proxyT p = some c)
    (hv : rawGet2 s.heap c k2 = .int u) :
    proxyGet2 p k2 s = (.int u, track2 c k2 s) := by
  simp [proxyGet2, hp, hv]

end D2

namespace D2

/-- Reading a primitive-valued key through a wrapper inside an effect:
the wrapped closure tracks the raw pair and memoizes nothing. -/
theorem effectRun2_readBody (s2 : D2State) (p1 c : Nat) (k2 : String)
    (u : Int) (e : Nat)
    (hp1 : lookupA s2.proxyT p1 = some c)
    (hv : rawGet2 s2.heap c k2 = .int u) :
    effectRun2 (readBody p1 k2) e s2
      = { track2 c k2
            { s2 with activeEffect := some e, ran := s2.ran ++ [e] }
          with activeEffect := none } := by
  have h := proxyGet2_int
    { s2 with activeEffect := some e, ran := s2.ran ++ [e] }
    p1 c k2 u hp1 hv
  simp only [effectRun2, readBody]
  rw [h]

/-- Writing a changed primitive through a wrapper: the raw slot is
written and the raw pair's subscribers are triggered synchronously. -/
theorem proxySet2_int_changed (env : Nat → D2State → D2State)
    (s3 : D2State) (p2 c : Nat) (k2 : String) (u w : Int)
    (hp2 : lookupA s3.proxyT p2 = some c)
    (hv : rawGet2 s3.heap c k2 = .int u)
    (hwu : w ≠ u) :
    proxySet2 env p2 k2 (.int w) s3
      = (true, trigger2 env c k2
          { s3 with heap := rawSet2 s3.heap c k2 (.int w) }) := by
  have hne : rawGet2 s3.heap c k2 ≠ D2Val.int w := by
    rw [hv]
    simp only [ne_eq, D2Val.int.injEq]
    exact fun h => hwu h.symm
  simp [proxySet2, hp2, hne]

/-- Concrete day-2 state for the wrapper-identity scenario: raw object 0
holds raw object 1 at key "k"; object 1 holds 7 at key "x"; proxy 5
wraps object 0; the next proxy id is 6. -/
def d2ex : D2State :=
  ⟨[(0, [("k", .obj 1)]), (1, [("x", .int 7)])], [(5, 0)], 6, [],
   none, []⟩

end D2

/-- C9: for every day-2 reactive proxy `p` over target `t` where `t[k]`
is a plain nested object `c`, two reads of `p[k]` outside any effect
return two distinct freshly allocated proxy wrappers — wrapper identity
is not preserved across reads — yet both wrap the same raw target `c`;
an effect `e` whose body reads `c`'s key `k2` through the first wrapper
is registered on the raw pair `(c, k2)`, and a changed-value write made
through the second wrapper therefore runs `e` (synchronously — day-2
triggers without a scheduler). -/
theorem nested_wrappers_share_target (s : D2.D2State) (p t c : Nat)
    (k k2 : String) (u w : Int) (e : Nat)
    (hp : lookupA s.proxyT p = some t)
    (hobj : D2.rawGet2 s.heap t k = .obj c)
    (hval : D2.rawGet2 s.heap c k2 = .int u)
    (hae : s.activeEffect = none)
    (hlt : p < s.nextId)
    (hwu : w ≠ u) :
    (D2.proxyGet2 p k s).1 = .proxyv s.nextId ∧
    (D2.proxyGet2 p k (D2.proxyGet2 p k s).2).1
      = .proxyv (s.nextId + 1) ∧
    s.nextId ≠ s.nextId + 1 ∧
    lookupA ((D2.proxyGet2 p k (D2.proxyGet2 p k s).2).2).proxyT
      s.nextId = some c ∧
    lookupA ((D2.proxyGet2 p k (D2.proxyGet2 p k s).2).2).proxyT
      (s.nextId + 1) = some c ∧
    e ∈ D2.getDeps2
      (D2.effectRun2 (D2.readBody s.nextId k2) e
        ((D2.proxyGet2 p k (D2.proxyGet2 p k s).2).2)) c k2 ∧
    e ∈ ((D2.proxySet2 (D2.envOf2 (D2.readBody s.nextId k2))
        (s.nextId + 1) k2 (.int w)
        (D2.effectRun2 (D2.readBody s.nextId k2) e
          ((D2.proxyGet2 p k (D2.proxyGet2 p k s).2).2))).2).ran := by
  have hnn : s.nextId ≠ s.nextId + 1 := Nat.ne_of_lt (Nat.lt_succ_self _)
  have hA : D2.proxyGet2 p k s = (.proxyv s.nextId, D2.allocOne c s) :=
    D2.proxyGet2_obj s p t c k hp hobj hae
  have hA2 : (D2.proxyGet2 p k s).2 = D2.allocOne c s := by rw [hA]
  have hpA : lookupA (D2.allocOne c s).proxyT p = some t := by
    show lookupA (setA s.proxyT s.nextId c) p = some t
    rw [lookupA_setA_other _ c (Nat.ne_of_lt hlt)]
    exact hp
  have hB : D2.proxyGet2 p k (D2.allocOne c s)
      = (.proxyv (D2.allocOne c s).nextId,
         D2.allocOne c (D2.allocOne c s)) :=
    D2.proxyGet2_obj (D2.allocOne c s) p t c k hpA hobj hae
  have hB2 : (D2.proxyGet2 p k (D2.proxyGet2 p k s).2).2
      = D2.allocOne c (D2.allocOne c s) := by rw [hA2, hB]
  have hlook1 :
      lookupA (D2.allocOne c (D2.allocOne c s)).proxyT s.nextId
        = some c := by
    show lookupA (setA (setA s.proxyT s.nextId c) (s.nextId + 1) c)
      s.nextId = some c
    rw [lookupA_setA_other _ c hnn, lookupA_setA_same]
  have hlook2 :
      lookupA (D2.allocOne c (D2.allocOne c s)).proxyT (s.nextId + 1)
        = some c := by
    show lookupA (setA (setA s.proxyT s.nextId c) (s.nextId + 1) c)
      (s.nextId + 1) = some c
    rw [lookupA_setA_same]
  have hE := D2.effectRun2_readBody (D2.allocOne c (D2.allocOne c s))
    s.nextId c k2 u e hlook1 hval
  have hpSE : lookupA
      ({ D2.track2 c k2
           { D2.allocOne c (D2.allocOne c s) with
             activeEffect := some e,
             ran := (D2.allocOne c (D2.allocOne c s)).ran ++ [e] }
         with activeEffect := none } : D2.D2State).proxyT (s.nextId + 1)
        = some c := by
    show lookupA (D2.track2 c k2
      { D2.allocOne c (D2.allocOne c s) with
        activeEffect := some e,
        ran := (D2.allocOne c (D2.allocOne c s)).ran ++ [e] }).proxyT
      (s.nextId + 1) = some c
    rw [D2.track2_proxyT]
    exact hlook2
  have hvSE : D2.rawGet2
      ({ D2.track2 c k2
           { D2.allocOne c (D2.allocOne c s) with
             activeEffect := some e,
             ran := (D2.allocOne c (D2.allocOne c s)).ran ++ [e] }
         with activeEffect := none } : D2.D2State).heap c k2
        = .int u := by
    show D2.rawGet2 (D2.track2 c k2
      { D2.allocOne c (D2.allocOne c s) with
        activeEffect := some e,
        ran := (D2.allocOne c (D2.allocOne c s)).ran ++ [e] }).heap c k2
      = .int u
    rw [D2.track2_heap]
    exact hval
  refine ⟨?_, ?_, hnn, ?_, ?_, ?_, ?_⟩
  · rw [hA]
  · rw [hA2, hB]; rfl
  · rw [hB2]; exact hlook1
  · rw [hB2]; exact hlook2
  · rw [hB2, hE]
    exact D2.getDeps2_track2_self c k2 _ e rfl
  · rw [hB2, hE]
    rw [D2.proxySet2_int_changed (D2.envOf2 (D2.readBody s.nextId k2))
      _ (s.nextId + 1) c k2 u w hpSE hvSE hwu]
    refine D2.trigger2_envOf2_ran_mem (D2.readBody s.nextId k2)
      (D2.readBody_ran s.nextId k2) c k2 _ e ?_
    exact D2.getDeps2_track2_self c k2 _ e rfl

/-- C9 witness: the wrapper-identity scenario evaluated at the concrete
state `d2ex` with effect 4 and write value 9. -/
theorem nested_wrappers_share_target_witness :
    (lookupA D2.d2ex.proxyT 5 = some 0 ∧
     D2.rawGet2 D2.d2ex.heap 0 "k" = .obj 1 ∧
     D2.rawGet2 D2.d2ex.heap 1 "x" = .int 7 ∧
     D2.d2ex.activeEffect = none ∧
     5 < D2.d2ex.nextId ∧
     (9 : Int) ≠ 7) ∧
    ((D2.proxyGet2 5 "k" D2.d2ex).1 = .proxyv D2.d2ex.nextId ∧
     (D2.proxyGet2 5 "k" (D2.proxyGet2 5 "k" D2.d2ex).2).1
       = .proxyv (D2.d2ex.nextId + 1) ∧
     D2.d2ex.nextId ≠ D2.d2ex.nextId + 1 ∧
     lookupA ((D2.proxyGet2 5 "k" (D2.proxyGet2 5 "k" D2.d2ex).2).2).proxyT
       D2.d2ex.nextId = some 1 ∧
     lookupA ((D2.proxyGet2 5 "k" (D2.proxyGet2 5 "k" D2.d2ex).2).2).proxyT
       (D2.d2ex.nextId + 1) = some 1 ∧
     4 ∈ D2.getDeps2
       (D2.effectRun2 (D2.readBody D2.d2ex.nextId "x") 4
         ((D2.proxyGet2 5 "k" (D2.proxyGet2 5 "k" D2.d2ex).2).2)) 1 "x" ∧
     4 ∈ ((D2.proxySet2 (D2.envOf2 (D2.readBody D2.d2ex.nextId "x"))
         (D2.d2ex.nextId + 1) "x" (.int 9)
         (D2.effectRun2 (D2.readBody D2.d2ex.nextId "x") 4
           ((D2.proxyGet2 5 "k" (D2.proxyGet2 5 "k" D2.d2ex).2).2))).2).ran) :=
  ⟨⟨by decide, by decide, by decide, by decide, by decide, by decide⟩,
   nested_wrappers_share_target D2.d2ex 5 0 1 "k" "x" 7 9 4 (by decide)
     (by decide) (by decide) (by decide) (by decide) (by decide)⟩
